import Mathlib

/-!
Shallow embedding of the decision engine of `logic.py` (healthcare_app):
symptom vocabulary, disease/medicine reference tables, the classifier
wrapper `predict_disease` with its cardiac safety override, the medicine
filter `get_medicine_recommendations`, and the keyword-based symptom
extractor `extract_symptoms_from_text`.  Theorems at the end settle the
behavioural claims about these functions.
-/

/-- `AVAILABLE_SYMPTOMS` from logic.py: the fixed 20-entry symptom vocabulary. -/
def AVAILABLE_SYMPTOMS : List String :=
  ["fever", "cough", "fatigue", "headache", "body_ache", "sore_throat",
   "runny_nose", "nausea", "vomiting", "diarrhea", "stomach_pain", "heartburn",
   "chest_pain", "shortness_of_breath", "dizziness", "rapid_heartbeat",
   "sweating", "loss_of_appetite", "weakness", "chills"]

/-- `DISEASE_SYMPTOMS` from logic.py: condition name → characteristic symptoms. -/
def DISEASE_SYMPTOMS : List (String × List String) :=
  [("Flu", ["fever", "cough", "fatigue", "headache", "body_ache",
            "sore_throat", "chills", "weakness"]),
   ("Viral Infection", ["fever", "cough", "fatigue", "sore_throat",
                        "runny_nose", "headache", "body_ache"]),
   ("Acidity", ["heartburn", "stomach_pain", "nausea", "vomiting",
                "loss_of_appetite"]),
   ("Cardiac Risk", ["chest_pain", "shortness_of_breath", "dizziness",
                     "rapid_heartbeat", "sweating", "nausea"])]

/-- One entry of `MEDICINE_DATABASE`: the dict with keys
`name`, `type`, `age_restrictions`, `contraindications`, `notes`. -/
structure Medicine where
  name : String
  type : String
  age_restrictions : Option Int
  contraindications : List String
  notes : String
  deriving DecidableEq, Repr

/-- `MEDICINE_DATABASE` from logic.py: condition name → list of medicine entries.
Cardiac Risk deliberately maps to the empty list. -/
def MEDICINE_DATABASE : List (String × List Medicine) :=
  [("Flu",
    [⟨"Paracetamol", "Fever reducer & Pain reliever", none,
      ["paracetamol", "acetaminophen"], "Standard fever and pain management"⟩,
     ⟨"Cetirizine", "Antihistamine", some 2,
      ["cetirizine"], "For runny nose and allergic symptoms"⟩,
     ⟨"Vitamin C", "Supplement", none, [], "Immune support"⟩,
     ⟨"Zinc supplements", "Supplement", none, [],
      "May reduce duration of symptoms"⟩]),
   ("Viral Infection",
    [⟨"Paracetamol", "Fever reducer", none,
      ["paracetamol", "acetaminophen"], "For fever management"⟩,
     ⟨"Cetirizine", "Antihistamine", some 2, ["cetirizine"], "For cold symptoms"⟩,
     ⟨"Honey (warm water)", "Natural remedy", some 1, [],
      "Soothes throat, natural antimicrobial"⟩,
     ⟨"Steam inhalation", "Home remedy", none, [],
      "Helps clear nasal congestion"⟩]),
   ("Acidity",
    [⟨"Omeprazole", "Proton pump inhibitor", some 18,
      ["omeprazole"], "Reduces stomach acid production"⟩,
     ⟨"Ranitidine alternatives (Famotidine)", "H2 blocker", some 12,
      ["famotidine"], "Alternative acid reducer"⟩,
     ⟨"Antacid (Digene/ENO)", "Antacid", none, [],
      "Quick relief from heartburn"⟩,
     ⟨"Probiotics", "Supplement", none, [], "Supports digestive health"⟩]),
   ("Cardiac Risk", [])]

/-- One row of the list `get_medicine_recommendations` returns: the dict with
keys `Medicine`, `Type`, `Notes`, `Age Appropriate`. -/
structure MedRec where
  medName : String
  medType : String
  notes : String
  ageAppropriate : String
  deriving DecidableEq, Repr

/-- The dict literal appended to `safe_medicines` in logic.py (lines 310-315),
including its `"Yes"/"No"` age-appropriateness expression. -/
def projectMed (patient_age : Int) (med : Medicine) : MedRec :=
  { medName := med.name
    medType := med.type
    notes := med.notes
    ageAppropriate :=
      match med.age_restrictions with
      | none => "Yes"
      | some a => if patient_age ≥ a then "Yes" else "No" }

/-- The `for med in all_medicines` loop of `get_medicine_recommendations`
(logic.py lines 299-315): skip when the patient is below a set minimum age,
skip when some allergy token is literally among the contraindications,
otherwise append the projected row. -/
def filterMedicines (patient_age : Int) (allergies : List String) :
    List Medicine → List MedRec
  | [] => []
  | med :: rest =>
    if (match med.age_restrictions with
        | some a => decide (patient_age < a)
        | none => false) then
      filterMedicines patient_age allergies rest
    else if allergies.any (fun allergy => allergy ∈ med.contraindications) then
      filterMedicines patient_age allergies rest
    else
      projectMed patient_age med :: filterMedicines patient_age allergies rest

/-- `get_medicine_recommendations(disease, patient_age, allergies)` from
logic.py: empty for Cardiac Risk, otherwise the filtered projection of
`MEDICINE_DATABASE.get(disease, [])`. -/
def get_medicine_recommendations (disease : String) (patient_age : Int)
    (allergies : List String) : List MedRec :=
  if disease = "Cardiac Risk" then []
  else filterMedicines patient_age allergies
    ((MEDICINE_DATABASE.lookup disease).getD [])

/-- `validate_symptoms(symptoms)` from logic.py. -/
def validate_symptoms (symptoms : List String) : Bool :=
  symptoms.all (fun s => s ∈ AVAILABLE_SYMPTOMS)

/-- The trained `MultinomialNB` instance (`disease_model` in logic.py),
abstracted: `predictFn` stands for `disease_model.predict([v])[0]` and
`probaFn` for `disease_model.predict_proba([v])[0]`.  The training is
randomized (`np.random.choice` in `create_training_data`), so the model is a
parameter; probabilities are taken as exact rationals. -/
structure NBModel where
  predictFn : List Nat → String
  probaFn : List Nat → List ℚ

/-- Python `max` over a list of probabilities.  Python raises on an empty
input; a fitted model always yields one probability per class, so the `[]`
case (given the junk value 0) is unreachable under `TrainedModel`. -/
def pyMax : List ℚ → ℚ
  | [] => 0
  | x :: xs => xs.foldl max x

/-- Python `int(...)` applied to a real number: truncation toward zero. -/
def pyTrunc (q : ℚ) : Int :=
  if 0 ≤ q then ⌊q⌋ else ⌈q⌉

/-- What `sklearn` guarantees about a fitted classifier's `predict_proba`:
for every input vector the probability row is nonempty (one entry per class)
and every entry lies in [0, 1]. -/
def TrainedModel (m : NBModel) : Prop :=
  ∀ v : List Nat, m.probaFn v ≠ [] ∧ ∀ p ∈ m.probaFn v, 0 ≤ p ∧ p ≤ 1

/-- `predict_disease(symptoms)` from logic.py, parameterized by the trained
model: build the binary indicator vector over `AVAILABLE_SYMPTOMS`, query the
model for a label and a confidence `int(max(probabilities) * 100)`, then apply
the cardiac safety override: with 3 or more of Cardiac Risk's characteristic
symptoms present, the result is forced to ("Cardiac Risk", 95). -/
def predict_disease (m : NBModel) (symptoms : List String) : String × Int :=
  let symptom_vector : List Nat :=
    AVAILABLE_SYMPTOMS.map (fun s => if s ∈ symptoms then 1 else 0)
  let label := m.predictFn symptom_vector
  let probabilities := m.probaFn symptom_vector
  let confidence := pyTrunc (pyMax probabilities * 100)
  let cardiac_symptoms := ((DISEASE_SYMPTOMS.lookup "Cardiac Risk").getD []).dedup
  if 3 ≤ (cardiac_symptoms.filter (fun s => s ∈ symptoms)).length then
    ("Cardiac Risk", 95)
  else
    (label, confidence)

/-- A concrete stand-in for one possible trained model, used to exercise the
theorems on closed inputs. -/
def demoModel : NBModel :=
  { predictFn := fun _ => "Flu"
    probaFn := fun _ => [1/2, 1/4, 1/8, 1/8] }

/-- `SYMPTOM_KEYWORDS` from logic.py: symptom → phrase variants, in the
dict's fixed iteration order. -/
def SYMPTOM_KEYWORDS : List (String × List String) :=
  [("fever", ["fever", "temperature", "hot", "burning up", "pyrexia"]),
   ("cough", ["cough", "coughing", "throat clearing"]),
   ("fatigue", ["tired", "fatigue", "exhausted", "weakness", "weak", "low energy"]),
   ("headache", ["headache", "head pain", "migraine"]),
   ("body_ache", ["body ache", "muscle pain", "body pain", "aching", "soreness"]),
   ("sore_throat", ["sore throat", "throat pain", "throat hurts"]),
   ("runny_nose", ["runny nose", "nasal discharge", "stuffy nose", "congestion"]),
   ("nausea", ["nausea", "nauseated", "feel sick", "queasy"]),
   ("vomiting", ["vomit", "vomiting", "throwing up", "puking"]),
   ("diarrhea", ["diarrhea", "loose motions", "loose stools"]),
   ("stomach_pain", ["stomach pain", "abdominal pain", "belly pain", "stomach ache"]),
   ("heartburn", ["heartburn", "acid reflux", "burning chest", "indigestion"]),
   ("chest_pain", ["chest pain", "chest discomfort", "chest pressure", "chest tightness"]),
   ("shortness_of_breath", ["shortness of breath", "breathing difficulty",
                            "can\x27t breathe", "breathless", "dyspnea"]),
   ("dizziness", ["dizzy", "dizziness", "lightheaded", "vertigo"]),
   ("rapid_heartbeat", ["rapid heartbeat", "racing heart", "palpitations", "heart racing"]),
   ("sweating", ["sweating", "perspiring", "cold sweat"]),
   ("loss_of_appetite", ["loss of appetite", "no appetite", "not hungry"]),
   ("weakness", ["weakness", "weak", "feeble"]),
   ("chills", ["chills", "shivering", "shaking", "cold"])]

/-- Word-character test on an optional character, for a given word class
`w : Char → Bool`.  `w` is a parameter standing for membership in the regex
class `\w`: Python's `re` resolves it against its Unicode word-character
table (an external runtime table, like the sklearn model for the
classifier), so the table itself is not fixed here.  The edge of the string
counts as a non-word character. -/
def wOpt (w : Char → Bool) : Option Char → Bool
  | none => false
  | some c => w c

/-- Does the pattern `\b kw \b` (with `kw` escaped, so literal) match at the
current position, with word class `w`?  `prev` is the character just before
the position (none at the start of the string), `s` the remaining text.
A `\b` holds where the word-character status flips between the two sides. -/
def bMatchAt (w : Char → Bool) (kw : List Char) (prev : Option Char)
    (s : List Char) : Bool :=
  kw.isPrefixOf s && (wOpt w prev != wOpt w kw.head?) &&
    (wOpt w kw.getLast? != wOpt w (s.drop kw.length).head?)

/-- Scan of `re.search` over the rest of the text, carrying the previous
character for the leading boundary test. -/
def reSearchAux (w : Char → Bool) (kw : List Char) (prev : Option Char) :
    List Char → Bool
  | [] => bMatchAt w kw prev []
  | c :: rest => bMatchAt w kw prev (c :: rest) || reSearchAux w kw (some c) rest

/-- `re.search(r'\b' + re.escape(keyword) + r'\b', text)` as a Boolean:
does the keyword occur somewhere in the text on word boundaries, where the
word class `w` stands for the runtime's `\w` table? -/
def reSearch (w : Char → Bool) (kw text : List Char) : Bool :=
  reSearchAux w kw none text

/-- `extract_symptoms_from_text(text)` from logic.py: lowercase the text;
for each symptom of `SYMPTOM_KEYWORDS` in dict order, if some variant
matches on word boundaries (the inner loop breaks at the first hit), append
the symptom unless already recorded.  The parameters abstract the two
Python runtime primitives the function calls: `lower` stands for the
Unicode-aware `str.lower()` and `w` for the `\w` word-character table, both
external library behaviour (not code of this repository), exactly as the
trained model is a parameter of `predict_disease`. -/
def extract_symptoms_from_text (lower : String → String) (w : Char → Bool)
    (text : String) : List String :=
  let text_lower := (lower text).toList
  SYMPTOM_KEYWORDS.foldl
    (fun extracted sk =>
      if sk.2.any (fun kw => reSearch w kw.toList text_lower) then
        if sk.1 ∈ extracted then extracted else extracted ++ [sk.1]
      else extracted)
    []

/-- Specification-side reading of `\b kw \b` matching with word class `w`:
the text splits as `pre ++ kw ++ post` with a word-status flip at both
seams — so a phrase never matches strictly inside a larger word. -/
def occursWithBoundary (w : Char → Bool) (kw text : List Char) : Prop :=
  ∃ pre post, text = pre ++ kw ++ post ∧
    (wOpt w pre.getLast? != wOpt w kw.head?) = true ∧
    (wOpt w kw.getLast? != wOpt w post.head?) = true

/-! ### Helper lemmas -/

/-- Provenance of the rows produced by the filtering loop: every returned row
is the projection of a catalog entry that passed both the age check and the
(exact) allergy check. -/
theorem mem_filterMedicines {patient_age : Int} {allergies : List String} :
    ∀ {meds : List Medicine} {r : MedRec},
      r ∈ filterMedicines patient_age allergies meds →
      ∃ med ∈ meds, r = projectMed patient_age med ∧
        (∀ a, med.age_restrictions = some a → a ≤ patient_age) ∧
        ∀ al ∈ allergies, al ∉ med.contraindications := by
  intro meds
  induction meds with
  | nil => intro r h; simp [filterMedicines] at h
  | cons med rest ih =>
    intro r h
    rw [filterMedicines] at h
    split at h
    · obtain ⟨m, hm, hrest⟩ := ih h
      exact ⟨m, List.mem_cons_of_mem _ hm, hrest⟩
    · rename_i hage
      split at h
      · obtain ⟨m, hm, hrest⟩ := ih h
        exact ⟨m, List.mem_cons_of_mem _ hm, hrest⟩
      · rename_i hall
        rcases List.mem_cons.mp h with rfl | h'
        · refine ⟨med, List.mem_cons_self _ _, rfl, ?_, ?_⟩
          · intro a ha
            rw [ha] at hage
            simpa using hage
          · intro al hal hcon
            exact hall (List.any_eq_true.mpr ⟨al, hal, by simpa using hcon⟩)
        · obtain ⟨m, hm, hrest⟩ := ih h'
          exact ⟨m, List.mem_cons_of_mem _ hm, hrest⟩

/-- Within each condition's catalog list, a medicine name identifies the entry. -/
theorem medicine_names_unique (disease : String) :
    ∀ m1 ∈ (MEDICINE_DATABASE.lookup disease).getD [],
    ∀ m2 ∈ (MEDICINE_DATABASE.lookup disease).getD [],
      m1.name = m2.name → m1 = m2 := by
  by_cases h1 : disease = "Flu"
  · subst h1; decide
  by_cases h2 : disease = "Viral Infection"
  · subst h2; decide
  by_cases h3 : disease = "Acidity"
  · subst h3; decide
  by_cases h4 : disease = "Cardiac Risk"
  · subst h4; decide
  have e1 : (disease == "Flu") = false := beq_eq_false_iff_ne.mpr h1
  have e2 : (disease == "Viral Infection") = false := beq_eq_false_iff_ne.mpr h2
  have e3 : (disease == "Acidity") = false := beq_eq_false_iff_ne.mpr h3
  have e4 : (disease == "Cardiac Risk") = false := beq_eq_false_iff_ne.mpr h4
  simp [MEDICINE_DATABASE, List.lookup, e1, e2, e3, e4]

/-! ### Claim theorems -/

/-- C2: for every age and every allergy set, `get_medicine_recommendations`
called with condition "Cardiac Risk" returns the empty list, and the medicine
catalog entry for "Cardiac Risk" is itself structurally empty. -/
theorem cardiac_no_medicines :
    (∀ (patient_age : Int) (allergies : List String),
      get_medicine_recommendations "Cardiac Risk" patient_age allergies = [])
    ∧ MEDICINE_DATABASE.lookup "Cardiac Risk" = some [] := by
  exact ⟨fun _ _ => rfl, by decide⟩

/-- C5: for every condition other than "Cardiac Risk", every age and every
allergy set, each returned row is the projection of a catalog entry whose
contraindication tags do not intersect the supplied allergy set. -/
theorem recommendations_respect_allergies (disease : String) (patient_age : Int)
    (allergies : List String) (hd : disease ≠ "Cardiac Risk") (r : MedRec)
    (hr : r ∈ get_medicine_recommendations disease patient_age allergies) :
    ∃ med ∈ (MEDICINE_DATABASE.lookup disease).getD [],
      r = projectMed patient_age med ∧
      ∀ al ∈ allergies, al ∉ med.contraindications := by
  rw [get_medicine_recommendations, if_neg hd] at hr
  obtain ⟨med, hmem, heq, _, hall⟩ := mem_filterMedicines hr
  exact ⟨med, hmem, heq, hall⟩

/-- Closed instance of `recommendations_respect_allergies`: with condition
"Flu", age 30 and allergy list ["cetirizine"], the row for Paracetamol is
returned and stems from a catalog entry clear of the allergy. -/
theorem recommendations_respect_allergies_witness :
    ∃ med ∈ (MEDICINE_DATABASE.lookup "Flu").getD [],
      projectMed 30 ⟨"Paracetamol", "Fever reducer & Pain reliever", none,
        ["paracetamol", "acetaminophen"], "Standard fever and pain management"⟩
        = projectMed 30 med ∧
      ∀ al ∈ ["cetirizine"], al ∉ med.contraindications :=
  recommendations_respect_allergies "Flu" 30 ["cetirizine"] (by decide) _ (by decide)

/-- C6: for every condition other than "Cardiac Risk" and every age, each
returned row is the projection of a catalog entry whose minimum age is unset
or at most the supplied age. -/
theorem recommendations_respect_min_age (disease : String) (patient_age : Int)
    (allergies : List String) (hd : disease ≠ "Cardiac Risk") (r : MedRec)
    (hr : r ∈ get_medicine_recommendations disease patient_age allergies) :
    ∃ med ∈ (MEDICINE_DATABASE.lookup disease).getD [],
      r = projectMed patient_age med ∧
      (med.age_restrictions = none ∨
        ∃ a, med.age_restrictions = some a ∧ a ≤ patient_age) := by
  rw [get_medicine_recommendations, if_neg hd] at hr
  obtain ⟨med, hmem, heq, hage, _⟩ := mem_filterMedicines hr
  refine ⟨med, hmem, heq, ?_⟩
  cases h : med.age_restrictions with
  | none => exact Or.inl rfl
  | some a => exact Or.inr ⟨a, rfl, hage a h⟩

/-- Closed instance of `recommendations_respect_min_age`: with condition
"Acidity" and age 10, the Antacid row is returned and its catalog entry has
no minimum age. -/
theorem recommendations_respect_min_age_witness :
    ∃ med ∈ (MEDICINE_DATABASE.lookup "Acidity").getD [],
      projectMed 10 ⟨"Antacid (Digene/ENO)", "Antacid", none, [],
        "Quick relief from heartburn"⟩ = projectMed 10 med ∧
      (med.age_restrictions = none ∨
        ∃ a, med.age_restrictions = some a ∧ a ≤ 10) :=
  recommendations_respect_min_age "Acidity" 10 [] (by decide) _ (by decide)

/-- C10: every row ever returned by `get_medicine_recommendations` carries
the annotation value "Yes"; the "No" branch of the projection is unreachable
because age-inappropriate entries were already skipped. -/
theorem recommendations_age_appropriate_yes (disease : String)
    (patient_age : Int) (allergies : List String) (r : MedRec)
    (hr : r ∈ get_medicine_recommendations disease patient_age allergies) :
    r.ageAppropriate = "Yes" := by
  rw [get_medicine_recommendations] at hr
  split at hr
  · simp at hr
  · obtain ⟨med, _, heq, hage, _⟩ := mem_filterMedicines hr
    subst heq
    cases h : med.age_restrictions with
    | none => simp [projectMed, h]
    | some a => simp [projectMed, h, if_pos (hage a h)]

/-- Closed instance of `recommendations_age_appropriate_yes`: the Cetirizine
row returned for "Flu" at age 30 is annotated "Yes". -/
theorem recommendations_age_appropriate_yes_witness :
    (projectMed 30 ⟨"Cetirizine", "Antihistamine", some 2, ["cetirizine"],
      "For runny nose and allergic symptoms"⟩).ageAppropriate = "Yes" :=
  recommendations_age_appropriate_yes "Flu" 30 [] _ (by decide)

/-- C3 counterexample: called with the unknown condition name "Migraine",
`get_medicine_recommendations` does not fail — it returns the empty list,
exactly what the claim says must not happen. -/
theorem unknown_condition_returns_empty_ce :
    get_medicine_recommendations "Migraine" 30 [] = [] := by decide

/-- C3 (amended): for every condition name outside the four known conditions,
`get_medicine_recommendations` silently returns the empty list; no error path
exists (the catalog lookup falls back to an empty default). -/
theorem unknown_condition_silently_empty (disease : String) (patient_age : Int)
    (allergies : List String)
    (hd : disease ∉ ["Flu", "Viral Infection", "Acidity", "Cardiac Risk"]) :
    get_medicine_recommendations disease patient_age allergies = [] := by
  simp only [List.mem_cons, List.not_mem_nil, or_false, not_or] at hd
  obtain ⟨h1, h2, h3, h4⟩ := hd
  have e1 : (disease == "Flu") = false := beq_eq_false_iff_ne.mpr h1
  have e2 : (disease == "Viral Infection") = false := beq_eq_false_iff_ne.mpr h2
  have e3 : (disease == "Acidity") = false := beq_eq_false_iff_ne.mpr h3
  have e4 : (disease == "Cardiac Risk") = false := beq_eq_false_iff_ne.mpr h4
  rw [get_medicine_recommendations, if_neg h4]
  simp [MEDICINE_DATABASE, List.lookup, e1, e2, e3, e4, filterMedicines]

/-- Closed instance of `unknown_condition_silently_empty` at the unknown
condition name "Common Cold". -/
theorem unknown_condition_silently_empty_witness :
    get_medicine_recommendations "Common Cold" 5 ["paracetamol"] = [] :=
  unknown_condition_silently_empty "Common Cold" 5 ["paracetamol"] (by decide)

/-- C7 counterexample: the allergy token "Paracetamol" differs from the
contraindication tag "paracetamol" only in letter case, yet the Paracetamol
row is still returned for "Flu" at age 30 — allergy matching in
`get_medicine_recommendations` is not case-insensitive. -/
theorem allergy_case_sensitive_ce :
    projectMed 30 ⟨"Paracetamol", "Fever reducer & Pain reliever", none,
        ["paracetamol", "acetaminophen"], "Standard fever and pain management"⟩
      ∈ get_medicine_recommendations "Flu" 30 ["Paracetamol"] := by decide

/-- C7 (amended): allergy exclusion is exact, case-sensitive membership — a
catalog entry is excluded whenever some supplied allergy token is literally
one of its contraindication tags (tokens differing in case do not exclude;
the caller is expected to pre-lowercase them). -/
theorem allergy_exact_match_excludes (disease : String) (patient_age : Int)
    (allergies : List String) (med : Medicine)
    (hmed : med ∈ (MEDICINE_DATABASE.lookup disease).getD [])
    (hal : ∃ al ∈ allergies, al ∈ med.contraindications) :
    projectMed patient_age med ∉
      get_medicine_recommendations disease patient_age allergies := by
  intro hin
  rw [get_medicine_recommendations] at hin
  split at hin
  · simp at hin
  · obtain ⟨med', hmem', heq, _, hall'⟩ := mem_filterMedicines hin
    have hname : med.name = med'.name := congrArg MedRec.medName heq
    have hsame : med = med' := medicine_names_unique disease med hmed med' hmem' hname
    obtain ⟨al, halmem, halc⟩ := hal
    exact hall' al halmem (hsame ▸ halc)

/-- Closed instance of `allergy_exact_match_excludes`: the exactly matching
token "paracetamol" does exclude the Paracetamol row for "Flu" at age 30. -/
theorem allergy_exact_match_excludes_witness :
    projectMed 30 ⟨"Paracetamol", "Fever reducer & Pain reliever", none,
        ["paracetamol", "acetaminophen"], "Standard fever and pain management"⟩
      ∉ get_medicine_recommendations "Flu" 30 ["paracetamol"] :=
  allergy_exact_match_excludes "Flu" 30 ["paracetamol"] _ (by decide)
    ⟨"paracetamol", by decide, by decide⟩

/-- C1: whenever at least 3 of Cardiac Risk's characteristic symptoms
{chest_pain, shortness_of_breath, dizziness, rapid_heartbeat, sweating,
nausea} are among the reported symptoms, `predict_disease` returns exactly
("Cardiac Risk", 95), whatever other symptoms are present and whatever the
trained model would have predicted. -/
theorem cardiac_override_forces_cardiac (m : NBModel) (symptoms : List String)
    (h : 3 ≤ ((["chest_pain", "shortness_of_breath", "dizziness",
        "rapid_heartbeat", "sweating", "nausea"] : List String).filter
        (fun s => s ∈ symptoms)).length) :
    predict_disease m symptoms = ("Cardiac Risk", 95) := by
  have hc : ((DISEASE_SYMPTOMS.lookup "Cardiac Risk").getD []).dedup
      = ["chest_pain", "shortness_of_breath", "dizziness", "rapid_heartbeat",
         "sweating", "nausea"] := by decide
  simp only [predict_disease, hc]
  rw [if_pos h]

/-- Closed instance of `cardiac_override_forces_cardiac`: three cardiac
symptoms plus an unrelated one force ("Cardiac Risk", 95) on a model whose
own answer would be ("Flu", 50). -/
theorem cardiac_override_forces_cardiac_witness :
    predict_disease demoModel ["fever", "chest_pain", "dizziness", "sweating"]
      = ("Cardiac Risk", 95) :=
  cardiac_override_forces_cardiac demoModel
    ["fever", "chest_pain", "dizziness", "sweating"] (by decide)

/-- C4 counterexample: the identifier "not_a_symptom" is outside the
vocabulary (`validate_symptoms` rejects the list), yet `predict_disease`
does not fail — it returns an ordinary prediction. -/
theorem invalid_symptom_no_error_ce :
    validate_symptoms ["fever", "not_a_symptom"] = false
    ∧ predict_disease demoModel ["fever", "not_a_symptom"]
        = predict_disease demoModel ["fever"] :=
  ⟨by decide, rfl⟩

/-- C4 (amended): `predict_disease` silently ignores identifiers outside the
vocabulary — its result only depends on which vocabulary symptoms are
present, since both the indicator vector and the cardiac intersection range
over known symptoms only; `validate_symptoms` exists but is never called on
this path. -/
theorem predict_ignores_unknown_symptoms (m : NBModel) (symptoms : List String) :
    predict_disease m symptoms
      = predict_disease m (symptoms.filter (fun s => s ∈ AVAILABLE_SYMPTOMS)) := by
  have hmem : ∀ s ∈ AVAILABLE_SYMPTOMS,
      (s ∈ symptoms.filter (fun s => s ∈ AVAILABLE_SYMPTOMS)) ↔ s ∈ symptoms := by
    intro s hs
    simp [List.mem_filter, hs]
  have hvec : (AVAILABLE_SYMPTOMS.map (fun s => if s ∈ symptoms then (1 : Nat) else 0))
      = AVAILABLE_SYMPTOMS.map
          (fun s => if s ∈ symptoms.filter (fun s => s ∈ AVAILABLE_SYMPTOMS)
            then (1 : Nat) else 0) := by
    apply List.map_congr_left
    intro s hs
    by_cases h : s ∈ symptoms
    · rw [if_pos h, if_pos ((hmem s hs).mpr h)]
    · rw [if_neg h, if_neg (fun hc => h ((hmem s hs).mp hc))]
  have hcard : ((DISEASE_SYMPTOMS.lookup "Cardiac Risk").getD []).dedup.filter
        (fun s => s ∈ symptoms)
      = ((DISEASE_SYMPTOMS.lookup "Cardiac Risk").getD []).dedup.filter
        (fun s => s ∈ symptoms.filter (fun s => s ∈ AVAILABLE_SYMPTOMS)) := by
    apply List.filter_congr
    intro c hc
    have hav : c ∈ AVAILABLE_SYMPTOMS := by fin_cases hc <;> decide
    rw [decide_eq_decide]
    exact (hmem c hav).symm
  simp only [predict_disease]
  rw [hvec, hcard]

/-- Bounding a left fold of `max` from above. -/
theorem foldl_max_le {b : ℚ} : ∀ {l : List ℚ} {acc : ℚ},
    acc ≤ b → (∀ p ∈ l, p ≤ b) → l.foldl max acc ≤ b := by
  intro l
  induction l with
  | nil => intro acc ha _; simpa using ha
  | cons x xs ih =>
    intro acc ha hl
    rw [List.foldl_cons]
    exact ih (max_le ha (hl x (List.mem_cons_self _ _)))
      (fun p hp => hl p (List.mem_cons_of_mem _ hp))

/-- Bounding a left fold of `max` from below by the seed. -/
theorem le_foldl_max {b : ℚ} : ∀ {l : List ℚ} {acc : ℚ},
    b ≤ acc → b ≤ l.foldl max acc := by
  intro l
  induction l with
  | nil => intro acc ha; simpa using ha
  | cons x xs ih =>
    intro acc ha
    rw [List.foldl_cons]
    exact ih (le_trans ha (le_max_left _ _))

/-- `pyMax` of a nonempty list of values in [0, 1] lies in [0, 1]. -/
theorem pyMax_bounds {l : List ℚ} (hne : l ≠ [])
    (h : ∀ p ∈ l, 0 ≤ p ∧ p ≤ 1) : 0 ≤ pyMax l ∧ pyMax l ≤ 1 := by
  cases l with
  | nil => exact absurd rfl hne
  | cons x xs =>
    rw [pyMax]
    exact ⟨le_foldl_max (h x (List.mem_cons_self _ _)).1,
      foldl_max_le (h x (List.mem_cons_self _ _)).2
        (fun p hp => (h p (List.mem_cons_of_mem _ hp)).2)⟩

/-- Truncation of a rational in [0, 100] stays in [0, 100]. -/
theorem pyTrunc_range {q : ℚ} (h0 : 0 ≤ q) (h1 : q ≤ 100) :
    0 ≤ pyTrunc q ∧ pyTrunc q ≤ 100 := by
  rw [pyTrunc, if_pos h0]
  refine ⟨Int.le_floor.mpr (by exact_mod_cast h0), ?_⟩
  have h2 : (⌊q⌋ : ℚ) ≤ 100 := le_trans (Int.floor_le q) h1
  exact_mod_cast h2

/-- C9: for every symptom list (the empty one included) and every trained
model state, the confidence component of `predict_disease` is an integer in
the closed interval [0, 100]. -/
theorem confidence_in_range (m : NBModel) (hm : TrainedModel m)
    (symptoms : List String) :
    0 ≤ (predict_disease m symptoms).2
    ∧ (predict_disease m symptoms).2 ≤ 100 := by
  have key : ∀ v : List Nat,
      0 ≤ pyTrunc (pyMax (m.probaFn v) * 100)
      ∧ pyTrunc (pyMax (m.probaFn v) * 100) ≤ 100 := by
    intro v
    obtain ⟨hne, hbd⟩ := hm v
    have hmax := pyMax_bounds hne hbd
    apply pyTrunc_range
    · exact mul_nonneg hmax.1 (by norm_num)
    · calc pyMax (m.probaFn v) * 100 ≤ 1 * 100 :=
            mul_le_mul_of_nonneg_right hmax.2 (by norm_num)
        _ = 100 := by norm_num
  simp only [predict_disease]
  split
  · exact ⟨by norm_num, by norm_num⟩
  · simpa using key _

/-- `demoModel` satisfies the `TrainedModel` contract. -/
theorem demoModel_trained : TrainedModel demoModel := by
  intro v
  constructor
  · simp [demoModel]
  · intro p hp
    simp only [demoModel] at hp
    fin_cases hp <;> norm_num

/-- Closed instance of `confidence_in_range`: the prediction on the empty
symptom list under `demoModel` has its confidence within [0, 100]. -/
theorem confidence_in_range_witness :
    0 ≤ (predict_disease demoModel []).2
    ∧ (predict_disease demoModel []).2 ≤ 100 :=
  confidence_in_range demoModel demoModel_trained []

/-- The character standing just before the current scan position after the
prefix `pre` has been consumed, starting from previous character `prev`. -/
def prevAt (prev : Option Char) : List Char → Option Char
  | [] => prev
  | c :: pre => prevAt (some c) pre

theorem prevAt_nil (prev : Option Char) : prevAt prev [] = prev := rfl

theorem prevAt_cons (prev : Option Char) (c : Char) (pre : List Char) :
    prevAt prev (c :: pre) = prevAt (some c) pre := rfl

theorem prevAt_ne_nil : ∀ (pre : List Char), pre ≠ [] →
    ∀ prev, prevAt prev pre = pre.getLast? := by
  intro pre
  induction pre with
  | nil => intro h; cases h rfl
  | cons c pre2 ih =>
    intro _ prev
    cases pre2 with
    | nil => rfl
    | cons d pre3 =>
      show prevAt (some c) (d :: pre3) = _
      rw [ih (by simp) (some c), List.getLast?_cons_cons]

theorem prevAt_none (pre : List Char) : prevAt none pre = pre.getLast? := by
  cases pre with
  | nil => rfl
  | cons c pre2 => exact prevAt_ne_nil (c :: pre2) (by simp) none

/-- `bMatchAt` holds exactly when the remaining text starts with the keyword
and the word-character status flips at both ends of the keyword. -/
theorem bMatchAt_iff {w : Char → Bool} {kw : List Char} {prev : Option Char}
    {s : List Char} :
    bMatchAt w kw prev s = true ↔
      ∃ post, s = kw ++ post ∧ (wOpt w prev != wOpt w kw.head?) = true ∧
        (wOpt w kw.getLast? != wOpt w post.head?) = true := by
  rw [bMatchAt]
  simp only [Bool.and_eq_true, List.isPrefixOf_iff_prefix]
  constructor
  · rintro ⟨⟨hpre, h1⟩, h2⟩
    obtain ⟨post, rfl⟩ := hpre
    exact ⟨post, rfl, h1, by simpa [List.drop_left] using h2⟩
  · rintro ⟨post, rfl, h1, h2⟩
    exact ⟨⟨⟨post, rfl⟩, h1⟩, by simpa [List.drop_left] using h2⟩

/-- Characterization of the scan: it succeeds exactly when the text splits
around a keyword occurrence with boundary flips at both seams, where the
character preceding the occurrence is tracked through `prevAt`. -/
theorem reSearchAux_iff (w : Char → Bool) (kw : List Char) :
    ∀ (s : List Char) (prev : Option Char),
      reSearchAux w kw prev s = true ↔
        ∃ pre post, s = pre ++ kw ++ post ∧
          (wOpt w (prevAt prev pre) != wOpt w kw.head?) = true ∧
          (wOpt w kw.getLast? != wOpt w post.head?) = true := by
  intro s
  induction s with
  | nil =>
    intro prev
    rw [reSearchAux]
    constructor
    · intro h
      obtain ⟨post, heq, h1, h2⟩ := bMatchAt_iff.mp h
      exact ⟨[], post, by simpa using heq, by simpa [prevAt_nil] using h1, h2⟩
    · rintro ⟨pre, post, heq, h1, h2⟩
      have hpre : pre = [] := by
        cases pre with
        | nil => rfl
        | cons x xs => simp at heq
      subst hpre
      exact bMatchAt_iff.mpr ⟨post, by simpa using heq,
        by simpa [prevAt_nil] using h1, h2⟩
  | cons c rest ih =>
    intro prev
    rw [reSearchAux, Bool.or_eq_true]
    constructor
    · rintro (h | h)
      · obtain ⟨post, heq, h1, h2⟩ := bMatchAt_iff.mp h
        exact ⟨[], post, by simpa using heq, by simpa [prevAt_nil] using h1, h2⟩
      · obtain ⟨pre, post, heq, h1, h2⟩ := (ih (some c)).mp h
        exact ⟨c :: pre, post, by simp [heq], by rwa [prevAt_cons], h2⟩
    · rintro ⟨pre, post, heq, h1, h2⟩
      cases pre with
      | nil =>
        exact Or.inl (bMatchAt_iff.mpr ⟨post, by simpa using heq,
          by simpa [prevAt_nil] using h1, h2⟩)
      | cons c2 pre2 =>
        simp only [List.cons_append, List.cons.injEq] at heq
        obtain ⟨rfl, hrest⟩ := heq
        refine Or.inr ((ih (some c)).mpr ⟨pre2, post, hrest, ?_, h2⟩)
        rwa [prevAt_cons] at h1

/-- `reSearch` finds the keyword exactly at whole-word/phrase boundaries,
for every word class. -/
theorem reSearch_iff (w : Char → Bool) (kw text : List Char) :
    reSearch w kw text = true ↔ occursWithBoundary w kw text := by
  rw [reSearch, reSearchAux_iff]
  unfold occursWithBoundary
  constructor
  · rintro ⟨pre, post, heq, h1, h2⟩
    exact ⟨pre, post, heq, by rwa [prevAt_none] at h1, h2⟩
  · rintro ⟨pre, post, heq, h1, h2⟩
    exact ⟨pre, post, heq, by rwa [prevAt_none], h2⟩

/-- The recording fold of the extractor equals a filter over the keyword
table followed by a projection to the symptom names, provided the keys are
distinct and none is already recorded. -/
theorem foldl_record_eq_filter (p : String × List String → Bool) :
    ∀ (l : List (String × List String)) (acc : List String),
      (∀ sk ∈ l, sk.1 ∉ acc) → (l.map Prod.fst).Nodup →
      l.foldl (fun extracted sk =>
        if p sk then (if sk.1 ∈ extracted then extracted else extracted ++ [sk.1])
        else extracted) acc
      = acc ++ (l.filter p).map Prod.fst := by
  intro l
  induction l with
  | nil => intro acc _ _; simp
  | cons sk rest ih =>
    intro acc hacc hnodup
    rw [List.map_cons, List.nodup_cons] at hnodup
    rw [List.foldl_cons]
    by_cases hp : p sk = true
    · have hacc2 : ∀ sk2 ∈ rest, sk2.1 ∉ acc ++ [sk.1] := by
        intro sk2 h2
        simp only [List.mem_append, List.mem_singleton]
        rintro (h | h)
        · exact hacc sk2 (List.mem_cons_of_mem _ h2) h
        · exact hnodup.1 (h ▸ List.mem_map_of_mem Prod.fst h2)
      rw [if_pos hp, if_neg (hacc sk (List.mem_cons_self _ _)),
        ih (acc ++ [sk.1]) hacc2 hnodup.2]
      simp [List.filter_cons, hp]
    · rw [if_neg hp,
        ih acc (fun sk2 h2 => hacc sk2 (List.mem_cons_of_mem _ h2)) hnodup.2]
      simp [List.filter_cons, hp]

/-- C8: for every lowercasing function and every word class (in particular
the Python runtime's Unicode `str.lower()` and `\w` table), the extractor
lowercases its input and returns, in the keyword dictionary's fixed
iteration order and without duplicates, exactly those symptoms for which
some phrase variant matches the lowered text (the empty list being the
valid outcome when nothing matches); and a phrase matches only on
whole-word/phrase boundaries, never inside a larger word. -/
theorem extract_symptoms_characterization :
    (∀ (lower : String → String) (w : Char → Bool) (text : String),
      extract_symptoms_from_text lower w text
        = ((SYMPTOM_KEYWORDS.filter (fun sk => sk.2.any
            (fun kw => reSearch w kw.toList (lower text).toList))).map
            Prod.fst))
    ∧ ∀ (w : Char → Bool) (kw text : List Char),
        reSearch w kw text = true ↔ occursWithBoundary w kw text := by
  constructor
  · intro lower w text
    exact foldl_record_eq_filter
      (fun sk => sk.2.any (fun kw => reSearch w kw.toList (lower text).toList))
      SYMPTOM_KEYWORDS [] (by simp) (by decide)
  · exact reSearch_iff
